import Mathlib

/-!
Verification of the shard-token ledger (`src/contracts/token(erc20)/src/contract.rs`).

The contract's storage is a key-value store with three prefixed namespaces
(balances, allowances, config).  We embed each namespace as an association
list from keys to natural-number values; `sget` models a prefixed-storage
`get` defaulting to zero (the contract's `read_balance` / `read_allowance`
behaviour on a missing key) and `sset` models `set`, overwriting the slot
for the key.  All amounts in the contract are `u128` (CosmWasm `Uint128`),
so arithmetic that can leave the `u128` range is modelled with an explicit
`2 ^ 128` bound where the source performs it.

Each state-changing entry point is translated from the source as a function
`TokenState → args → TokenState × Option ContractError`.  The returned
`TokenState` reflects every storage write the function issued before it
returned, including writes issued before an error return — the source
writes straight through `deps.storage`, and it is the host that discards
the writes of a failed call (`hostCommit` below models that committed
semantics).
-/

/-- Lookup in an association-list store; a missing key reads as `0`,
matching the contract's `match store.get(key) { None => Ok(0) }` default. -/
def sget {κ : Type} [DecidableEq κ] : List (κ × Nat) → κ → Nat
  | [], _ => 0
  | p :: m, k => if p.1 = k then p.2 else sget m k

/-- Write to an association-list store: overwrite the slot for `k`
(append when absent), matching `PrefixedStorage::set`. -/
def sset {κ : Type} [DecidableEq κ] : List (κ × Nat) → κ → Nat → List (κ × Nat)
  | [], k, v => [(k, v)]
  | p :: m, k, v => if p.1 = k then (k, v) :: m else p :: sset m k v

/-- Sum of all values held in a store. -/
def ssum {κ : Type} : List (κ × Nat) → Nat
  | [] => 0
  | p :: m => p.2 + ssum m

/-- The `u128` range bound: every amount and stored value in the contract is
a `u128`, and additions in the source trap when the mathematical result
reaches `2 ^ 128`. -/
def U128 : Nat := 2 ^ 128

/-- Modelled from the spec: token metadata (`crate::state::Constants`, whose
source file is not under `src/`); the spec fixes its fields as name, symbol
and decimals. -/
structure Constants where
  name : String
  symbol : String
  decimals : Nat
deriving DecidableEq, Repr

/-- Modelled from the spec: the error taxonomy (`crate::error::ContractError`,
whose source file is not under `src/`); the variants and their payloads are
the ones constructed in `contract.rs` and listed in spec §7.  `overflow`
models a checked-arithmetic trap (the spec calls the supply accumulation
"checked addition" and the burn decrement "checked subtraction"), and
`missingTotalSupply` models the `expect("no total supply data stored")`
panic in `try_burn`; both abort the call. -/
inductive ContractError where
  | nameWrongFormat
  | tickerWrongSymbolFormat
  | decimalsExceeded
  | insufficientFunds (balance required : Nat)
  | insufficientAllowance (allowance required : Nat)
  | overflow
  | missingTotalSupply
deriving DecidableEq, Repr

/-- The message accepted by `instantiate` (`crate::msg::InstantiateMsg`, not
under `src/`; fields as used in `contract.rs` and spec §6).  Seed amounts
are `Uint128` values, embedded as `Nat`. -/
structure InstantiateMsg where
  name : String
  symbol : String
  decimals : Nat
  initial_balances : List (String × Nat)

/-- The contract's storage: the three prefixed namespaces of `contract.rs`.
Balances are keyed by address, allowances by the (owner, spender) pair
(spec §6), and the config namespace holds the serialized `Constants` record
and the total-supply record, each `none` until first written. -/
structure TokenState where
  balances : List (String × Nat)
  allowances : List ((String × String) × Nat)
  constants : Option Constants
  totalSupply : Option Nat
deriving DecidableEq, Repr

/-- The store before `instantiate`: nothing written yet. -/
def emptyState : TokenState := ⟨[], [], none, none⟩

/-- The seed loop of `instantiate` (lines 30–34): for each row, write the
balance, then accumulate the amount into the running total supply.  The
accumulation `total_supply += amount_raw` is checked `u128` addition
(spec §4.1: "accumulates the sum into total supply using checked
addition"), so the loop stops with `overflow` when the running total would
reach `2 ^ 128`; the balance write of the offending row has already been
issued, matching the source order (set, then add). -/
def initLoop : List (String × Nat) → List (String × Nat) → Nat →
    List (String × Nat) × Nat × Option ContractError
  | [], store, total => (store, total, none)
  | (addr, amount) :: rest, store, total =>
    if total + amount < U128 then
      initLoop rest (sset store addr amount) (total + amount)
    else
      (sset store addr amount, total, some ContractError.overflow)

/-- `instantiate` (lines 19–58).  The name/symbol validators
`is_valid_name` / `is_valid_symbol` are referenced by the source but their
definitions are not under `src/`, and the spec leaves their exact rules
open (§9), so they are taken as parameters.  Seed balances are written
first, then name, symbol and decimals are validated in that order; on
success the config namespace receives the constants and the total supply. -/
def instantiate (is_valid_name is_valid_symbol : String → Bool)
    (s : TokenState) (msg : InstantiateMsg) : TokenState × Option ContractError :=
  match initLoop msg.initial_balances s.balances 0 with
  | (store, _, some e) => ({ s with balances := store }, some e)
  | (store, total_supply, none) =>
    if ¬ is_valid_name msg.name then
      ({ s with balances := store }, some ContractError.nameWrongFormat)
    else if ¬ is_valid_symbol msg.symbol then
      ({ s with balances := store }, some ContractError.tickerWrongSymbolFormat)
    else if msg.decimals > 18 then
      ({ s with balances := store }, some ContractError.decimalsExceeded)
    else
      ({ s with
          balances := store
          constants := some ⟨msg.name, msg.symbol, msg.decimals⟩
          totalSupply := some total_supply }, none)

/-- `perform_transfer` (lines 213–243): read the sender balance (default 0);
fail with `InsufficientFunds` when it is below `amount`; otherwise write the
debited sender balance, read the recipient balance from the updated store
(so a self-transfer sees its own debit), and write the credited recipient
balance.  The credit `to_balance += amount` is checked `u128` addition:
reaching `2 ^ 128` traps, after the debit write was already issued. -/
def perform_transfer (s : TokenState) (src dst : String) (amount : Nat) :
    TokenState × Option ContractError :=
  let from_balance := sget s.balances src
  if from_balance < amount then
    (s, some (ContractError.insufficientFunds from_balance amount))
  else
    let bal1 := sset s.balances src (from_balance - amount)
    let to_balance := sget bal1 dst
    if to_balance + amount < U128 then
      ({ s with balances := sset bal1 dst (to_balance + amount) }, none)
    else
      ({ s with balances := bal1 }, some ContractError.overflow)

/-- `try_transfer` (lines 104–121): a transfer is `perform_transfer` from the
caller to the recipient (the response attributes are observability only). -/
def try_transfer (s : TokenState) (sender recipient : String) (amount : Nat) :
    TokenState × Option ContractError :=
  perform_transfer s sender recipient amount

/-- `try_transfer_from` (lines 123–151): read the allowance for
(owner, caller); fail with `InsufficientAllowance` when it is below
`amount`; otherwise write the decremented allowance and then run
`perform_transfer` from owner to recipient — the allowance write is issued
before the transfer step's balance check runs. -/
def try_transfer_from (s : TokenState) (sender owner recipient : String) (amount : Nat) :
    TokenState × Option ContractError :=
  let allowance := sget s.allowances (owner, sender)
  if allowance < amount then
    (s, some (ContractError.insufficientAllowance allowance amount))
  else
    perform_transfer
      { s with allowances := sset s.allowances (owner, sender) (allowance - amount) }
      owner recipient amount

/-- `try_approve` (lines 153–166): overwrite the allowance for
(caller, spender) with `amount`; no other read or check is performed. -/
def try_approve (s : TokenState) (sender spender : String) (amount : Nat) :
    TokenState × Option ContractError :=
  ({ s with allowances := sset s.allowances (sender, spender) amount }, none)

/-- `try_burn` (lines 173–211): read the caller balance; fail with
`InsufficientFunds` when it is below `amount`; otherwise write the debited
balance, then read the total supply (a missing record is the
`expect`-panic, modelled as `missingTotalSupply` — the balance write was
already issued), decrement it by `amount` (checked `u128` subtraction,
spec §4.5) and write it back. -/
def try_burn (s : TokenState) (sender : String) (amount : Nat) :
    TokenState × Option ContractError :=
  let account_balance := sget s.balances sender
  if account_balance < amount then
    (s, some (ContractError.insufficientFunds account_balance amount))
  else
    let s1 := { s with balances := sset s.balances sender (account_balance - amount) }
    match s1.totalSupply with
    | none => (s1, some ContractError.missingTotalSupply)
    | some total_supply =>
      if amount ≤ total_supply then
        ({ s1 with totalSupply := some (total_supply - amount) }, none)
      else
        (s1, some ContractError.overflow)

/-- A state-changing command together with the authenticated caller the host
supplies (`info.sender`); the four variants of `ExecuteMsg`. -/
inductive Cmd where
  | transfer (sender recipient : String) (amount : Nat)
  | approve (sender spender : String) (amount : Nat)
  | transferFrom (sender owner recipient : String) (amount : Nat)
  | burn (sender : String) (amount : Nat)

/-- `execute` (lines 60–79): dispatch a command to its handler. -/
def execute (s : TokenState) : Cmd → TokenState × Option ContractError
  | .transfer sender recipient amount => try_transfer s sender recipient amount
  | .approve sender spender amount => try_approve s sender spender amount
  | .transferFrom sender owner recipient amount =>
      try_transfer_from s sender owner recipient amount
  | .burn sender amount => try_burn s sender amount

/-- Run a sequence of commands, requiring every one to succeed; `none` as
soon as any command returns an error. -/
def execList (s : TokenState) : List Cmd → Option TokenState
  | [] => some s
  | c :: cs =>
    match execute s c with
    | (s', none) => execList s' cs
    | (_, some _) => none

/-- Modelled from the spec (§5): the host treats each call as one atomic
unit, committing its writes on success and discarding all of them when the
call returns an error. -/
def hostCommit (s : TokenState) (r : TokenState × Option ContractError) :
    TokenState × Option ContractError :=
  match r with
  | (s', none) => (s', none)
  | (_, some e) => (s, some e)

/-- Sum of all balances held in the balance store of a state. -/
def sumBalances (s : TokenState) : Nat := ssum s.balances

/-- Sum of the seed amounts of an `InstantiateMsg`, each entry counted. -/
def sumAmounts (msg : InstantiateMsg) : Nat := ssum msg.initial_balances

theorem sget_sset_self {κ : Type} [DecidableEq κ] (m : List (κ × Nat)) (k : κ) (v : Nat) :
    sget (sset m k v) k = v := by
  induction m with
  | nil => simp [sset, sget]
  | cons p m ih =>
    by_cases h : p.1 = k
    · simp [sset, sget, h]
    · simp [sset, sget, h, ih]

theorem sget_sset_ne {κ : Type} [DecidableEq κ] (m : List (κ × Nat)) (k k' : κ) (v : Nat)
    (h : k' ≠ k) : sget (sset m k v) k' = sget m k' := by
  induction m with
  | nil =>
    have hk : ¬ (k = k') := fun hh => h hh.symm
    simp [sset, sget, hk]
  | cons p m ih =>
    by_cases hp : p.1 = k
    · subst hp
      have hk : ¬ (p.1 = k') := fun hh => h hh.symm
      simp [sset, sget, hk]
    · simp [sset, sget, hp, ih]

theorem ssum_sset {κ : Type} [DecidableEq κ] (m : List (κ × Nat)) (k : κ) (v : Nat) :
    ssum (sset m k v) + sget m k = ssum m + v := by
  induction m with
  | nil => simp [sset, sget, ssum]
  | cons p m ih =>
    by_cases h : p.1 = k
    · simp only [sset, sget, if_pos h, ssum]
      omega
    · simp only [sset, sget, if_neg h, ssum]
      omega

theorem sget_le_ssum {κ : Type} [DecidableEq κ] (m : List (κ × Nat)) (k : κ) :
    sget m k ≤ ssum m := by
  induction m with
  | nil => simp [sget, ssum]
  | cons p m ih =>
    by_cases h : p.1 = k
    · simp only [sget, if_pos h, ssum]
      omega
    · simp only [sget, if_neg h, ssum]
      omega

theorem perform_transfer_insufficient (s : TokenState) (src dst : String) (a : Nat)
    (h : sget s.balances src < a) :
    perform_transfer s src dst a =
      (s, some (ContractError.insufficientFunds (sget s.balances src) a)) := by
  simp only [perform_transfer]
  rw [if_pos h]

theorem perform_transfer_ok (s : TokenState) (src dst : String) (a : Nat)
    (hwf : ssum s.balances < U128) (hab : a ≤ sget s.balances src) :
    perform_transfer s src dst a =
      (⟨sset (sset s.balances src (sget s.balances src - a)) dst
          (sget (sset s.balances src (sget s.balances src - a)) dst + a),
        s.allowances, s.constants, s.totalSupply⟩, none) := by
  have h1 := ssum_sset s.balances src (sget s.balances src - a)
  have h2 := sget_le_ssum (sset s.balances src (sget s.balances src - a)) dst
  simp only [perform_transfer]
  rw [if_neg (by omega), if_pos (by omega)]

theorem perform_transfer_preserves (s s' : TokenState) (src dst : String) (a : Nat)
    (h : perform_transfer s src dst a = (s', none)) :
    ssum s'.balances = ssum s.balances ∧ s'.totalSupply = s.totalSupply ∧
    s'.allowances = s.allowances ∧ s'.constants = s.constants := by
  simp only [perform_transfer] at h
  by_cases h1 : sget s.balances src < a
  · rw [if_pos h1] at h
    injection h with _ h2
    exact Option.noConfusion h2
  · rw [if_neg h1] at h
    by_cases h2 : sget (sset s.balances src (sget s.balances src - a)) dst + a < U128
    · rw [if_pos h2] at h
      injection h with hs _
      subst hs
      have h3 := ssum_sset s.balances src (sget s.balances src - a)
      have h4 := ssum_sset (sset s.balances src (sget s.balances src - a)) dst
        (sget (sset s.balances src (sget s.balances src - a)) dst + a)
      refine ⟨?_, rfl, rfl, rfl⟩
      change ssum (sset (sset s.balances src (sget s.balances src - a)) dst
        (sget (sset s.balances src (sget s.balances src - a)) dst + a)) = ssum s.balances
      omega
    · rw [if_neg h2] at h
      injection h with _ h2
      exact Option.noConfusion h2

theorem try_transfer_from_allowance_ok (s : TokenState) (sp o r : String) (a : Nat)
    (h : a ≤ sget s.allowances (o, sp)) :
    try_transfer_from s sp o r a =
      perform_transfer
        { s with allowances := sset s.allowances (o, sp) (sget s.allowances (o, sp) - a) }
        o r a := by
  simp only [try_transfer_from]
  rw [if_neg (by omega)]

theorem try_burn_insufficient (s : TokenState) (x : String) (a : Nat)
    (h : sget s.balances x < a) :
    try_burn s x a = (s, some (ContractError.insufficientFunds (sget s.balances x) a)) := by
  simp only [try_burn]
  rw [if_pos h]

theorem try_burn_ok (s : TokenState) (x : String) (a T : Nat)
    (hT : s.totalSupply = some T) (hab : a ≤ sget s.balances x) (haT : a ≤ T) :
    try_burn s x a =
      (⟨sset s.balances x (sget s.balances x - a),
        s.allowances, s.constants, some (T - a)⟩, none) := by
  simp only [try_burn]
  rw [if_neg (by omega)]
  simp only [hT]
  rw [if_pos haT]

theorem initLoop_total (l store : List (String × Nat)) (t : Nat)
    (h : (initLoop l store t).2.2 = none) :
    (initLoop l store t).2.1 = t + ssum l := by
  induction l generalizing store t with
  | nil => simp [initLoop, ssum]
  | cons p l ih =>
    obtain ⟨a, v⟩ := p
    simp only [initLoop] at h ⊢
    by_cases hg : t + v < U128
    · rw [if_pos hg] at h ⊢
      rw [ih _ _ h]
      simp only [ssum]
      omega
    · rw [if_neg hg] at h
      exact Option.noConfusion h

theorem initLoop_ok (l store : List (String × Nat)) (t : Nat)
    (h : t + ssum l < U128) :
    (initLoop l store t).2.2 = none := by
  induction l generalizing store t with
  | nil => simp [initLoop]
  | cons p l ih =>
    obtain ⟨a, v⟩ := p
    simp only [ssum] at h
    simp only [initLoop]
    rw [if_pos (by omega)]
    exact ih _ _ (by omega)

theorem initLoop_overflow (l store : List (String × Nat)) (t : Nat)
    (h1 : t < U128) (h2 : U128 ≤ t + ssum l) :
    (initLoop l store t).2.2 = some ContractError.overflow := by
  induction l generalizing store t with
  | nil =>
    exfalso
    simp only [ssum] at h2
    omega
  | cons p l ih =>
    obtain ⟨a, v⟩ := p
    simp only [ssum] at h2
    simp only [initLoop]
    by_cases hg : t + v < U128
    · rw [if_pos hg]
      exact ih _ _ hg (by omega)
    · rw [if_neg hg]

theorem initLoop_seed (l : List (String × Nat)) (store : List (String × Nat)) (t : Nat)
    (hdist : (l.map Prod.fst).Nodup)
    (hfresh : ∀ p ∈ l, sget store p.1 = 0)
    (h : (initLoop l store t).2.2 = none) :
    ssum (initLoop l store t).1 = ssum store + ssum l := by
  induction l generalizing store t with
  | nil => simp [initLoop, ssum]
  | cons p l ih =>
    obtain ⟨a, v⟩ := p
    simp only [List.map_cons, List.nodup_cons] at hdist
    obtain ⟨ha, hdist'⟩ := hdist
    simp only [initLoop] at h ⊢
    by_cases hg : t + v < U128
    · rw [if_pos hg] at h ⊢
      have hfresh' : ∀ q ∈ l, sget (sset store a v) q.1 = 0 := by
        intro q hq
        have hne : q.1 ≠ a := fun he => ha (he ▸ List.mem_map_of_mem Prod.fst hq)
        rw [sget_sset_ne _ _ _ _ hne]
        exact hfresh q (List.mem_cons_of_mem _ hq)
      rw [ih _ _ hdist' hfresh' h]
      have h0 : sget store a = 0 := hfresh (a, v) (List.mem_cons_self _ _)
      have h1 := ssum_sset store a v
      simp only [ssum]
      omega
    · rw [if_neg hg] at h
      exact Option.noConfusion h

theorem instantiate_ok (v1 v2 : String → Bool) (s s' : TokenState) (msg : InstantiateMsg)
    (h : instantiate v1 v2 s msg = (s', none)) :
    (initLoop msg.initial_balances s.balances 0).2.2 = none ∧
    s'.balances = (initLoop msg.initial_balances s.balances 0).1 ∧
    s'.totalSupply = some (initLoop msg.initial_balances s.balances 0).2.1 ∧
    s'.allowances = s.allowances := by
  unfold instantiate at h
  rcases hr : initLoop msg.initial_balances s.balances 0 with ⟨store, total, err⟩
  rw [hr] at h
  cases err with
  | some e =>
    injection h with _ h2
    exact Option.noConfusion h2
  | none =>
    simp only at h
    by_cases hn : v1 msg.name
    · rw [if_neg (by simp [hn])] at h
      by_cases hs2 : v2 msg.symbol
      · rw [if_neg (by simp [hs2])] at h
        by_cases hd : msg.decimals > 18
        · rw [if_pos hd] at h
          injection h with _ h2
          exact Option.noConfusion h2
        · rw [if_neg hd] at h
          injection h with h1 _
          subst h1
          simp [hr]
      · rw [if_pos (by simp [hs2])] at h
        injection h with _ h2
        exact Option.noConfusion h2
    · rw [if_pos (by simp [hn])] at h
      injection h with _ h2
      exact Option.noConfusion h2

theorem try_transfer_from_preserves (s s' : TokenState) (sp o r : String) (a : Nat)
    (h : try_transfer_from s sp o r a = (s', none)) :
    ssum s'.balances = ssum s.balances ∧ s'.totalSupply = s.totalSupply := by
  simp only [try_transfer_from] at h
  by_cases hg : sget s.allowances (o, sp) < a
  · rw [if_pos hg] at h
    injection h with _ h2
    exact Option.noConfusion h2
  · rw [if_neg hg] at h
    have hp := perform_transfer_preserves _ _ _ _ _ h
    exact ⟨hp.1, hp.2.1⟩

theorem try_burn_ok_elim (s s' : TokenState) (x : String) (a : Nat)
    (h : try_burn s x a = (s', none)) :
    ∃ T, s.totalSupply = some T ∧ a ≤ sget s.balances x ∧ a ≤ T ∧
      s' = ⟨sset s.balances x (sget s.balances x - a),
        s.allowances, s.constants, some (T - a)⟩ := by
  simp only [try_burn] at h
  by_cases h1 : sget s.balances x < a
  · rw [if_pos h1] at h
    injection h with _ h2
    exact Option.noConfusion h2
  · rw [if_neg h1] at h
    rcases hs : s.totalSupply with _ | T
    · rw [hs] at h
      simp only at h
      injection h with _ h2
      exact Option.noConfusion h2
    · rw [hs] at h
      simp only at h
      by_cases h2 : a ≤ T
      · rw [if_pos h2] at h
        injection h with h3 _
        exact ⟨T, rfl, by omega, h2, h3.symm⟩
      · rw [if_neg h2] at h
        injection h with _ h4
        exact Option.noConfusion h4

theorem execute_preserves (s s' : TokenState) (c : Cmd)
    (hInv : s.totalSupply = some (ssum s.balances))
    (h : execute s c = (s', none)) :
    s'.totalSupply = some (ssum s'.balances) := by
  cases c with
  | transfer sender recipient amount =>
    have hp := perform_transfer_preserves s s' sender recipient amount h
    rw [hp.2.1, hInv, hp.1]
  | approve sender spender amount =>
    simp only [execute, try_approve] at h
    injection h with h1 _
    subst h1
    exact hInv
  | transferFrom sender owner recipient amount =>
    have hp := try_transfer_from_preserves s s' sender owner recipient amount h
    rw [hp.2, hInv, hp.1]
  | burn sender amount =>
    obtain ⟨T, hs, hab, haT, rfl⟩ := try_burn_ok_elim s s' sender amount h
    have hT : T = ssum s.balances := by
      rw [hs] at hInv
      injection hInv
    have h1 := ssum_sset s.balances sender (sget s.balances sender - amount)
    have h2 := sget_le_ssum s.balances sender
    show some (T - amount) =
      some (ssum (sset s.balances sender (sget s.balances sender - amount)))
    have h3 : ssum (sset s.balances sender (sget s.balances sender - amount)) =
        T - amount := by omega
    rw [h3]

theorem execList_preserves (cmds : List Cmd) (s s' : TokenState)
    (hInv : s.totalSupply = some (ssum s.balances))
    (h : execList s cmds = some s') :
    s'.totalSupply = some (ssum s'.balances) := by
  induction cmds generalizing s with
  | nil =>
    simp only [execList] at h
    injection h with h1
    subst h1
    exact hInv
  | cons c cs ih =>
    simp only [execList] at h
    rcases he : execute s c with ⟨s1, err⟩
    rw [he] at h
    cases err with
    | none => exact ih s1 (execute_preserves s s1 c hInv he) h
    | some e =>
      simp only at h
      exact Option.noConfusion h

/-- C1, counterexample: the claim asserts the sum of balances equals the
stored total supply immediately after every successful initialization, in
particular for seed lists with duplicate addresses.  Seeding with
[("a", 100), ("a", 50)] succeeds (valid name, symbol and decimals), yet the
balance store keeps only the last write for "a" (sum 50) while the total
supply accumulated every entry (150), so the invariant fails. -/
theorem C1_dup_seed_counterexample :
    (instantiate (fun _ => true) (fun _ => true) emptyState
        ⟨"Test", "TST", 6, [("a", 100), ("a", 50)]⟩).2 = none ∧
    ¬ ((instantiate (fun _ => true) (fun _ => true) emptyState
        ⟨"Test", "TST", 6, [("a", 100), ("a", 50)]⟩).1.totalSupply =
        some (sumBalances (instantiate (fun _ => true) (fun _ => true) emptyState
          ⟨"Test", "TST", 6, [("a", 100), ("a", 50)]⟩).1)) := by
  decide

/-- C1 (amended): for every state reachable by a successful initialization
whose seed addresses are pairwise distinct, followed by any sequence of
successful commands, the sum of all account balances equals the stored
total supply after each command (taking `cmds` to be any prefix covers
every intermediate state, and `cmds = []` is the state immediately after
initialization). -/
theorem C1_supply_invariant_distinct_seeds (v1 v2 : String → Bool)
    (msg : InstantiateMsg) (s0 s' : TokenState) (cmds : List Cmd)
    (hdist : (msg.initial_balances.map Prod.fst).Nodup)
    (hinit : instantiate v1 v2 emptyState msg = (s0, none))
    (hrun : execList s0 cmds = some s') :
    s'.totalSupply = some (sumBalances s') := by
  obtain ⟨hnone, hbal, htot, _⟩ := instantiate_ok v1 v2 emptyState s0 msg hinit
  have hseed := initLoop_seed msg.initial_balances emptyState.balances 0 hdist
    (fun p _ => rfl) hnone
  have htotal := initLoop_total msg.initial_balances emptyState.balances 0 hnone
  have hInv0 : s0.totalSupply = some (ssum s0.balances) := by
    rw [htot, hbal, htotal, hseed]
    norm_num [emptyState, ssum]
  exact execList_preserves cmds s0 s' hInv0 hrun

/-- C1, witness: a concrete distinct-address initialization followed by a
concrete successful transfer, with the invariant conclusion obtained from
`C1_supply_invariant_distinct_seeds`. -/
theorem C1_supply_invariant_witness :
    instantiate (fun _ => true) (fun _ => true) emptyState
        ⟨"Test", "TST", 6, [("a", 5), ("b", 3)]⟩ =
      (⟨[("a", 5), ("b", 3)], [], some ⟨"Test", "TST", 6⟩, some 8⟩, none) ∧
    execList ⟨[("a", 5), ("b", 3)], [], some ⟨"Test", "TST", 6⟩, some 8⟩
        [Cmd.transfer "a" "b" 2] =
      some ⟨[("a", 3), ("b", 5)], [], some ⟨"Test", "TST", 6⟩, some 8⟩ ∧
    (⟨[("a", 3), ("b", 5)], [], some ⟨"Test", "TST", 6⟩, some 8⟩ :
        TokenState).totalSupply =
      some (sumBalances ⟨[("a", 3), ("b", 5)], [], some ⟨"Test", "TST", 6⟩, some 8⟩) :=
  ⟨by decide, by decide,
    C1_supply_invariant_distinct_seeds (fun _ => true) (fun _ => true)
      ⟨"Test", "TST", 6, [("a", 5), ("b", 3)]⟩
      ⟨[("a", 5), ("b", 3)], [], some ⟨"Test", "TST", 6⟩, some 8⟩
      ⟨[("a", 3), ("b", 5)], [], some ⟨"Test", "TST", 6⟩, some 8⟩
      [Cmd.transfer "a" "b" 2] (by decide) (by decide) (by decide)⟩

/-- C2: a transfer of amount `a` from caller `x` to recipient `y` with
`x ≠ y` and `x`'s current balance `b ≥ a` (missing balances read as 0)
succeeds, leaves `x` with `b - a`, adds `a` to `y`'s prior balance, and
does not touch the stored total supply.  The hypothesis that the balance
total fits in the `u128` range is the data-model invariant of spec §3
(sum of balances equals the `u128` total supply), under which the credit's
checked addition cannot trap. -/
theorem C2_transfer_correct (s : TokenState) (x y : String) (a b : Nat)
    (hwf : sumBalances s < U128) (hxy : x ≠ y)
    (hb : sget s.balances x = b) (hab : a ≤ b) :
    (try_transfer s x y a).2 = none ∧
    sget (try_transfer s x y a).1.balances x = b - a ∧
    sget (try_transfer s x y a).1.balances y = sget s.balances y + a ∧
    (try_transfer s x y a).1.totalSupply = s.totalSupply := by
  have hok := perform_transfer_ok s x y a hwf (by omega)
  show (perform_transfer s x y a).2 = none ∧
    sget (perform_transfer s x y a).1.balances x = b - a ∧
    sget (perform_transfer s x y a).1.balances y = sget s.balances y + a ∧
    (perform_transfer s x y a).1.totalSupply = s.totalSupply
  rw [hok]
  refine ⟨rfl, ?_, ?_, rfl⟩
  · show sget (sset (sset s.balances x (sget s.balances x - a)) y
      (sget (sset s.balances x (sget s.balances x - a)) y + a)) x = b - a
    rw [sget_sset_ne _ _ _ _ hxy, sget_sset_self, hb]
  · show sget (sset (sset s.balances x (sget s.balances x - a)) y
      (sget (sset s.balances x (sget s.balances x - a)) y + a)) y =
      sget s.balances y + a
    rw [sget_sset_self, sget_sset_ne _ _ _ _ (fun he => hxy he.symm)]

/-- C2, witness: a concrete transfer of 2 from "x" (balance 5) to "y"
(balance 1), checked through `C2_transfer_correct`. -/
theorem C2_transfer_correct_witness :
    (try_transfer ⟨[("x", 5), ("y", 1)], [], none, some 6⟩ "x" "y" 2).2 = none ∧
    sget (try_transfer ⟨[("x", 5), ("y", 1)], [], none, some 6⟩ "x" "y" 2).1.balances "x" =
      5 - 2 ∧
    sget (try_transfer ⟨[("x", 5), ("y", 1)], [], none, some 6⟩ "x" "y" 2).1.balances "y" =
      sget (⟨[("x", 5), ("y", 1)], [], none, some 6⟩ : TokenState).balances "y" + 2 ∧
    (try_transfer ⟨[("x", 5), ("y", 1)], [], none, some 6⟩ "x" "y" 2).1.totalSupply =
      (⟨[("x", 5), ("y", 1)], [], none, some 6⟩ : TokenState).totalSupply :=
  C2_transfer_correct ⟨[("x", 5), ("y", 1)], [], none, some 6⟩ "x" "y" 2 5
    (by decide) (by decide) (by decide) (by decide)

/-- C3, counterexample: the claim omits owner ≠ recipient.  With owner and
recipient both "o" (balance 5, allowance 5 for spender "s") a transfer-from
of 3 succeeds, but the owner's balance is not reduced by 3 — the
debit-then-credit nets out and the balance stays 5. -/
theorem C3_self_recipient_counterexample :
    (try_transfer_from ⟨[("o", 5)], [(("o", "s"), 5)], none, none⟩ "s" "o" "o" 3).2 =
      none ∧
    sget (try_transfer_from ⟨[("o", 5)], [(("o", "s"), 5)], none, none⟩
        "s" "o" "o" 3).1.balances "o" ≠ 5 - 3 := by
  decide

/-- C3 (amended): for every transfer-from by spender `sp` of amount `a`
from owner `o` to a recipient `r` distinct from `o`, where the stored
allowance for (o, sp) is `L ≥ a` and `o`'s balance is `B ≥ a`, the call
succeeds, the allowance for (o, sp) becomes exactly `L - a`, `o`'s balance
becomes `B - a`, and `r`'s balance grows by `a`.  (When `o = r` the call
still succeeds and consumes allowance, but the balance nets out
unchanged — see the counterexample.)  The balance-total bound is the spec
§3 invariant, as in C2. -/
theorem C3_transfer_from_correct (s : TokenState) (sp o r : String) (a L B : Nat)
    (hor : o ≠ r) (hwf : sumBalances s < U128)
    (hL : sget s.allowances (o, sp) = L) (haL : a ≤ L)
    (hB : sget s.balances o = B) (haB : a ≤ B) :
    (try_transfer_from s sp o r a).2 = none ∧
    sget (try_transfer_from s sp o r a).1.allowances (o, sp) = L - a ∧
    sget (try_transfer_from s sp o r a).1.balances o = B - a ∧
    sget (try_transfer_from s sp o r a).1.balances r = sget s.balances r + a := by
  rw [try_transfer_from_allowance_ok s sp o r a (by omega)]
  have hok := perform_transfer_ok
    { s with allowances := sset s.allowances (o, sp) (sget s.allowances (o, sp) - a) }
    o r a (show ssum s.balances < U128 from hwf) (show a ≤ sget s.balances o by omega)
  rw [hok]
  refine ⟨rfl, ?_, ?_, ?_⟩
  · show sget (sset s.allowances (o, sp) (sget s.allowances (o, sp) - a)) (o, sp) =
      L - a
    rw [sget_sset_self, hL]
  · show sget (sset (sset s.balances o (sget s.balances o - a)) r
      (sget (sset s.balances o (sget s.balances o - a)) r + a)) o = B - a
    rw [sget_sset_ne _ _ _ _ hor, sget_sset_self, hB]
  · show sget (sset (sset s.balances o (sget s.balances o - a)) r
      (sget (sset s.balances o (sget s.balances o - a)) r + a)) r =
      sget s.balances r + a
    rw [sget_sset_self, sget_sset_ne _ _ _ _ (fun he => hor he.symm)]

/-- C3, witness: spender "s" draws 3 of an allowance of 5 from owner "o"
(balance 7) to recipient "r", checked through `C3_transfer_from_correct`. -/
theorem C3_transfer_from_correct_witness :
    (try_transfer_from ⟨[("o", 7)], [(("o", "s"), 5)], none, some 7⟩ "s" "o" "r" 3).2 =
      none ∧
    sget (try_transfer_from ⟨[("o", 7)], [(("o", "s"), 5)], none, some 7⟩
        "s" "o" "r" 3).1.allowances ("o", "s") = 5 - 3 ∧
    sget (try_transfer_from ⟨[("o", 7)], [(("o", "s"), 5)], none, some 7⟩
        "s" "o" "r" 3).1.balances "o" = 7 - 3 ∧
    sget (try_transfer_from ⟨[("o", 7)], [(("o", "s"), 5)], none, some 7⟩
        "s" "o" "r" 3).1.balances "r" =
      sget (⟨[("o", 7)], [(("o", "s"), 5)], none, some 7⟩ : TokenState).balances "r" + 3 :=
  C3_transfer_from_correct ⟨[("o", 7)], [(("o", "s"), 5)], none, some 7⟩ "s" "o" "r"
    3 5 7 (by decide) (by decide) (by decide) (by decide) (by decide) (by decide)

/-- C4: a burn of `a` by a caller with balance `b ≥ a` succeeds, leaves the
caller with `b - a`, and decreases the stored total supply by exactly `a`;
a burn of `a > b` fails with `InsufficientFunds` and changes neither any
balance nor the total supply (the error is returned before any write).
The success case is stated under the spec §3 data-model facts that the
supply record exists and bounds the balance total, which make the supply
decrement's checked subtraction safe. -/
theorem C4_burn_correct :
    (∀ (s : TokenState) (x : String) (a b T : Nat),
      sget s.balances x = b → a ≤ b → s.totalSupply = some T → sumBalances s ≤ T →
      (try_burn s x a).2 = none ∧
      sget (try_burn s x a).1.balances x = b - a ∧
      (try_burn s x a).1.totalSupply = some (T - a)) ∧
    (∀ (s : TokenState) (x : String) (a b : Nat),
      sget s.balances x = b → b < a →
      try_burn s x a = (s, some (ContractError.insufficientFunds b a))) := by
  constructor
  · intro s x a b T hb hab hT hle
    have hbs := sget_le_ssum s.balances x
    have hok := try_burn_ok s x a T hT (by omega)
      (by show a ≤ T; simp only [sumBalances] at hle; omega)
    rw [hok]
    refine ⟨rfl, ?_, rfl⟩
    show sget (sset s.balances x (sget s.balances x - a)) x = b - a
    rw [sget_sset_self, hb]
  · intro s x a b hb hba
    have h := try_burn_insufficient s x a (by omega)
    rw [hb] at h
    exact h

/-- C4, witness: burning 3 from a balance of 5 with supply 9, and a failing
burn of 9 from a balance of 5, both via `C4_burn_correct`. -/
theorem C4_burn_correct_witness :
    ((try_burn ⟨[("x", 5), ("y", 4)], [], none, some 9⟩ "x" 3).2 = none ∧
      sget (try_burn ⟨[("x", 5), ("y", 4)], [], none, some 9⟩ "x" 3).1.balances "x" =
        5 - 3 ∧
      (try_burn ⟨[("x", 5), ("y", 4)], [], none, some 9⟩ "x" 3).1.totalSupply =
        some (9 - 3)) ∧
    try_burn ⟨[("x", 5), ("y", 4)], [], none, some 9⟩ "x" 9 =
      (⟨[("x", 5), ("y", 4)], [], none, some 9⟩,
        some (ContractError.insufficientFunds 5 9)) :=
  ⟨C4_burn_correct.1 ⟨[("x", 5), ("y", 4)], [], none, some 9⟩ "x" 3 5 9
      (by decide) (by decide) (by decide) (by decide),
    C4_burn_correct.2 ⟨[("x", 5), ("y", 4)], [], none, some 9⟩ "x" 9 5
      (by decide) (by decide)⟩

/-- C5: every debiting operation — transfer, the transfer step inside
transfer-from (reached when the allowance suffices), and burn — fails with
`InsufficientFunds` carrying the actual balance and the requested amount
whenever the debited balance is below the amount, and the failed call
leaves every balance and the total supply unchanged (for transfer and burn
the whole state is returned untouched; for transfer-from only the
allowance namespace was written before the error). -/
theorem C5_insufficient_funds_behaviour :
    (∀ (s : TokenState) (x y : String) (a : Nat), sget s.balances x < a →
      try_transfer s x y a =
        (s, some (ContractError.insufficientFunds (sget s.balances x) a))) ∧
    (∀ (s : TokenState) (sp o r : String) (a : Nat),
      a ≤ sget s.allowances (o, sp) → sget s.balances o < a →
      (try_transfer_from s sp o r a).2 =
        some (ContractError.insufficientFunds (sget s.balances o) a) ∧
      (try_transfer_from s sp o r a).1.balances = s.balances ∧
      (try_transfer_from s sp o r a).1.totalSupply = s.totalSupply) ∧
    (∀ (s : TokenState) (x : String) (a : Nat), sget s.balances x < a →
      try_burn s x a =
        (s, some (ContractError.insufficientFunds (sget s.balances x) a))) := by
  refine ⟨?_, ?_, ?_⟩
  · intro s x y a h
    exact perform_transfer_insufficient s x y a h
  · intro s sp o r a haL h
    rw [try_transfer_from_allowance_ok s sp o r a haL]
    have hins := perform_transfer_insufficient
      { s with allowances := sset s.allowances (o, sp) (sget s.allowances (o, sp) - a) }
      o r a (show sget s.balances o < a from h)
    rw [hins]
    exact ⟨rfl, rfl, rfl⟩
  · intro s x a h
    exact try_burn_insufficient s x a h

/-- C5, witness: a transfer, a transfer-from with sufficient allowance, and
a burn, each requesting 9 against a balance of 5, all refused with
`InsufficientFunds 5 9` and no balance or supply change, via
`C5_insufficient_funds_behaviour`. -/
theorem C5_insufficient_funds_witness :
    try_transfer ⟨[("x", 5)], [(("x", "s"), 20)], none, some 5⟩ "x" "y" 9 =
      (⟨[("x", 5)], [(("x", "s"), 20)], none, some 5⟩,
        some (ContractError.insufficientFunds 5 9)) ∧
    ((try_transfer_from ⟨[("x", 5)], [(("x", "s"), 20)], none, some 5⟩ "s" "x" "y" 9).2 =
        some (ContractError.insufficientFunds 5 9) ∧
      (try_transfer_from ⟨[("x", 5)], [(("x", "s"), 20)], none, some 5⟩
          "s" "x" "y" 9).1.balances = [("x", 5)] ∧
      (try_transfer_from ⟨[("x", 5)], [(("x", "s"), 20)], none, some 5⟩
          "s" "x" "y" 9).1.totalSupply = some 5) ∧
    try_burn ⟨[("x", 5)], [(("x", "s"), 20)], none, some 5⟩ "x" 9 =
      (⟨[("x", 5)], [(("x", "s"), 20)], none, some 5⟩,
        some (ContractError.insufficientFunds 5 9)) :=
  ⟨C5_insufficient_funds_behaviour.1 ⟨[("x", 5)], [(("x", "s"), 20)], none, some 5⟩
      "x" "y" 9 (by decide),
    C5_insufficient_funds_behaviour.2.1 ⟨[("x", 5)], [(("x", "s"), 20)], none, some 5⟩
      "s" "x" "y" 9 (by decide) (by decide),
    C5_insufficient_funds_behaviour.2.2 ⟨[("x", 5)], [(("x", "s"), 20)], none, some 5⟩
      "x" 9 (by decide)⟩

/-- C6: approve is an absolute overwrite — approving `N` and then `M` for
the same (owner, spender) pair leaves the allowance exactly `M`, never
`N + M` — and both approvals succeed for every state, in particular with
no check of the owner's balance. -/
theorem C6_approve_overwrite (s : TokenState) (o sp : String) (N M : Nat) :
    (try_approve s o sp N).2 = none ∧
    (try_approve (try_approve s o sp N).1 o sp M).2 = none ∧
    sget (try_approve (try_approve s o sp N).1 o sp M).1.allowances (o, sp) = M := by
  refine ⟨rfl, rfl, ?_⟩
  show sget (sset (sset s.allowances (o, sp) N) (o, sp) M) (o, sp) = M
  rw [sget_sset_self]

theorem instantiate_overflow (v1 v2 : String → Bool) (s : TokenState)
    (msg : InstantiateMsg) (hge : U128 ≤ ssum msg.initial_balances) :
    instantiate v1 v2 s msg =
      ({ s with balances := (initLoop msg.initial_balances s.balances 0).1 },
        some ContractError.overflow) := by
  have hof := initLoop_overflow msg.initial_balances s.balances 0
    (by norm_num [U128]) (by omega)
  unfold instantiate
  rcases hr : initLoop msg.initial_balances s.balances 0 with ⟨store, total, err⟩
  rw [hr] at hof
  have herr : err = some ContractError.overflow := hof
  subst herr
  rfl

/-- C7: the seed loop accumulates the total supply with checked addition:
whenever the exact sum of all seed amounts reaches the `u128` range the
initialization fails (with the arithmetic trap, the supply record never
written), and whenever initialization succeeds the recorded supply is the
exact integer sum over all seed entries. -/
theorem C7_checked_supply_accumulation (v1 v2 : String → Bool) (s : TokenState)
    (msg : InstantiateMsg) :
    (U128 ≤ sumAmounts msg →
      (instantiate v1 v2 s msg).2 = some ContractError.overflow ∧
      (instantiate v1 v2 s msg).1.totalSupply = s.totalSupply) ∧
    ((instantiate v1 v2 s msg).2 = none →
      (instantiate v1 v2 s msg).1.totalSupply = some (sumAmounts msg)) := by
  constructor
  · intro hge
    rw [instantiate_overflow v1 v2 s msg
      (by simp only [sumAmounts] at hge; omega)]
    exact ⟨rfl, rfl⟩
  · intro hnone
    rcases hinst : instantiate v1 v2 s msg with ⟨s', err⟩
    rw [hinst] at hnone
    have herr : err = none := hnone
    subst herr
    obtain ⟨hln, _, htot, _⟩ := instantiate_ok v1 v2 s s' msg hinst
    show s'.totalSupply = some (sumAmounts msg)
    rw [htot, initLoop_total _ _ _ hln]
    simp [sumAmounts]

/-- C7, witness: seeding ("a", 2^128 - 1) and ("b", 1) overflows the
`u128` supply and fails with nothing recorded, while seeding ("a", 5)
records supply exactly 5, both via `C7_checked_supply_accumulation`. -/
theorem C7_checked_supply_witness :
    ((instantiate (fun _ => true) (fun _ => true) emptyState
        ⟨"Test", "TST", 6, [("a", 2 ^ 128 - 1), ("b", 1)]⟩).2 =
        some ContractError.overflow ∧
      (instantiate (fun _ => true) (fun _ => true) emptyState
        ⟨"Test", "TST", 6, [("a", 2 ^ 128 - 1), ("b", 1)]⟩).1.totalSupply = none) ∧
    (instantiate (fun _ => true) (fun _ => true) emptyState
        ⟨"Test", "TST", 6, [("a", 5)]⟩).1.totalSupply = some (sumAmounts ⟨"Test", "TST", 6, [("a", 5)]⟩) :=
  ⟨(C7_checked_supply_accumulation (fun _ => true) (fun _ => true) emptyState
      ⟨"Test", "TST", 6, [("a", 2 ^ 128 - 1), ("b", 1)]⟩).1 (by decide),
    (C7_checked_supply_accumulation (fun _ => true) (fun _ => true) emptyState
      ⟨"Test", "TST", 6, [("a", 5)]⟩).2 (by decide)⟩

/-- C8, counterexample: the claim asserts that after a failed
decimals-check the balance store is exactly as before the call.  With
decimals 19, a valid name and symbol, and one seed entry, the call does
fail with `DecimalsExceeded`, but the core has already issued the seed
balance write: the balance store is no longer empty when the error is
returned (only the host's rollback restores it). -/
theorem C8_seed_writes_counterexample :
    (instantiate (fun _ => true) (fun _ => true) emptyState
        ⟨"Test", "TST", 19, [("a", 5)]⟩).2 = some ContractError.decimalsExceeded ∧
    (instantiate (fun _ => true) (fun _ => true) emptyState
        ⟨"Test", "TST", 19, [("a", 5)]⟩).1.balances ≠ emptyState.balances := by
  decide

/-- C8 (amended): an initialization whose seed amounts sum below the
`u128` range, with a valid name and symbol but decimals > 18, fails with
`DecimalsExceeded`; the config store (constants and total supply) is
untouched by the core, the seed balance writes have already been issued,
and under the host's atomic rollback the committed state is exactly the
pre-call state. -/
theorem C8_decimals_exceeded_behaviour (v1 v2 : String → Bool) (s : TokenState)
    (msg : InstantiateMsg)
    (hsum : sumAmounts msg < U128)
    (hname : v1 msg.name = true) (hsym : v2 msg.symbol = true)
    (hdec : msg.decimals > 18) :
    (instantiate v1 v2 s msg).2 = some ContractError.decimalsExceeded ∧
    (instantiate v1 v2 s msg).1.constants = s.constants ∧
    (instantiate v1 v2 s msg).1.totalSupply = s.totalSupply ∧
    hostCommit s (instantiate v1 v2 s msg) =
      (s, some ContractError.decimalsExceeded) := by
  have hln : (initLoop msg.initial_balances s.balances 0).2.2 = none :=
    initLoop_ok _ _ _ (by simp only [sumAmounts] at hsum; omega)
  unfold instantiate
  rcases hr : initLoop msg.initial_balances s.balances 0 with ⟨store, total, err⟩
  rw [hr] at hln
  have herr : err = none := hln
  subst herr
  simp only
  rw [if_neg (by simp [hname]), if_neg (by simp [hsym]), if_pos hdec]
  exact ⟨rfl, rfl, rfl, rfl⟩

/-- C8, witness: the concrete decimals-19 initialization of the
counterexample, checked through `C8_decimals_exceeded_behaviour`. -/
theorem C8_decimals_exceeded_witness :
    (instantiate (fun _ => true) (fun _ => true) emptyState
        ⟨"Test", "TST", 19, [("a", 5)]⟩).2 = some ContractError.decimalsExceeded ∧
    (instantiate (fun _ => true) (fun _ => true) emptyState
        ⟨"Test", "TST", 19, [("a", 5)]⟩).1.constants = none ∧
    (instantiate (fun _ => true) (fun _ => true) emptyState
        ⟨"Test", "TST", 19, [("a", 5)]⟩).1.totalSupply = none ∧
    hostCommit emptyState (instantiate (fun _ => true) (fun _ => true) emptyState
        ⟨"Test", "TST", 19, [("a", 5)]⟩) =
      (emptyState, some ContractError.decimalsExceeded) :=
  C8_decimals_exceeded_behaviour (fun _ => true) (fun _ => true) emptyState
    ⟨"Test", "TST", 19, [("a", 5)]⟩ (by decide) (by decide) (by decide) (by decide)

/-- C9: in a transfer-from whose allowance for (owner, caller) covers the
amount, the decremented-allowance write is issued before the balance check
of the transfer step runs; hence a transfer-from that fails with
`InsufficientFunds` returns with the allowance store already holding the
decremented value. -/
theorem C9_allowance_write_before_funds_check (s : TokenState)
    (sp o r : String) (a L B : Nat)
    (hL : sget s.allowances (o, sp) = L) (haL : a ≤ L)
    (hB : sget s.balances o = B) (hBa : B < a) :
    (try_transfer_from s sp o r a).2 =
      some (ContractError.insufficientFunds B a) ∧
    sget (try_transfer_from s sp o r a).1.allowances (o, sp) = L - a := by
  rw [try_transfer_from_allowance_ok s sp o r a (by omega)]
  have hins := perform_transfer_insufficient
    { s with allowances := sset s.allowances (o, sp) (sget s.allowances (o, sp) - a) }
    o r a (show sget s.balances o < a by omega)
  rw [hins]
  constructor
  · show some (ContractError.insufficientFunds (sget s.balances o) a) =
      some (ContractError.insufficientFunds B a)
    rw [hB]
  · show sget (sset s.allowances (o, sp) (sget s.allowances (o, sp) - a)) (o, sp) =
      L - a
    rw [sget_sset_self, hL]

/-- C9, witness: allowance 10 for ("o", "s"), owner balance 4, transfer-from
of 7: the call fails with `InsufficientFunds 4 7` while the returned state
already holds allowance 3, via `C9_allowance_write_before_funds_check`. -/
theorem C9_allowance_write_witness :
    (try_transfer_from ⟨[("o", 4)], [(("o", "s"), 10)], none, some 4⟩ "s" "o" "r" 7).2 =
      some (ContractError.insufficientFunds 4 7) ∧
    sget (try_transfer_from ⟨[("o", 4)], [(("o", "s"), 10)], none, some 4⟩
        "s" "o" "r" 7).1.allowances ("o", "s") = 10 - 7 :=
  C9_allowance_write_before_funds_check ⟨[("o", 4)], [(("o", "s"), 10)], none, some 4⟩
    "s" "o" "r" 7 10 4 (by decide) (by decide) (by decide) (by decide)

/-- C10: a self-transfer of `a ≤ b` by a caller with balance `b` (a stored
`u128`, hence below `2 ^ 128`) succeeds and leaves the caller's balance
equal to `b`: the debit is written, the credit re-reads the freshly
debited in-memory value and restores `b`, with no short-circuit and no
intermediate negative value (all values are non-negative naturals). -/
theorem C10_self_transfer (s : TokenState) (x : String) (a b : Nat)
    (hb : sget s.balances x = b) (hab : a ≤ b) (hlt : b < U128) :
    (try_transfer s x x a).2 = none ∧
    sget (try_transfer s x x a).1.balances x = b := by
  show (perform_transfer s x x a).2 = none ∧
    sget (perform_transfer s x x a).1.balances x = b
  simp only [perform_transfer]
  rw [hb, if_neg (by omega), sget_sset_self, if_pos (by omega)]
  refine ⟨rfl, ?_⟩
  show sget (sset (sset s.balances x (b - a)) x (b - a + a)) x = b
  rw [sget_sset_self]
  omega

/-- C10, witness: transferring 3 from "x" (balance 5) to itself leaves the
balance 5, via `C10_self_transfer`. -/
theorem C10_self_transfer_witness :
    (try_transfer ⟨[("x", 5)], [], none, some 5⟩ "x" "x" 3).2 = none ∧
    sget (try_transfer ⟨[("x", 5)], [], none, some 5⟩ "x" "x" 3).1.balances "x" = 5 :=
  C10_self_transfer ⟨[("x", 5)], [], none, some 5⟩ "x" 3 5
    (by decide) (by decide) (by decide)
